import Mathlib

/-!
Verification of the age-verification decision pipeline of this browser
extension (source: `popup.js`, background policy sink in the unnamed
background script).  The pipeline interprets raw classifier outputs into a
probability of the "adult" class, aggregates per-pass probabilities into a
probability/confidence pair, decides a MINOR/MAJOR verdict with a
near-boundary confidence penalty, idempotently drives the SafeSearch policy
sink, and maintains a one-hour verification window.

Numbers are modelled as real numbers (the JavaScript source computes with
IEEE doubles; this development reasons about the ideal real-valued
semantics of those formulas).  Timestamps are integers in milliseconds, as
delivered by `Date.now()`.
-/

namespace AgeVerify

/-- `Math.max(0, Math.min(1, probability))` — the final clamp of
`interpretOutputToProbability` (popup.js:598). -/
noncomputable def clamp01 (x : ℝ) : ℝ := max 0 (min 1 x)

/-- `interpretOutputToProbability` (popup.js:572-599).  Length 1: a value in
`[0,1]` is taken as the probability, any other value is treated as a logit
and passed through the logistic function.  Length 2: softmax over the two
values, stabilised by subtracting the maximum; index 1 is the adult class.
Any other length yields `null` (`none`).  The result is clamped to `[0,1]`. -/
noncomputable def interpretOutputToProbability (outputData : List ℝ) : Option ℝ :=
  match outputData with
  | [] => none
  | [rawValue] =>
      some (clamp01 (if 0 ≤ rawValue ∧ rawValue ≤ 1 then rawValue
                     else 1 / (1 + Real.exp (-rawValue))))
  | [o0, o1] =>
      some (clamp01 (Real.exp (o1 - max o0 o1) /
        (Real.exp (o0 - max o0 o1) + Real.exp (o1 - max o0 o1))))
  | _ => none

/-- `avgProb` (popup.js:922): arithmetic mean of the per-pass probabilities. -/
noncomputable def avgProb (l : List ℝ) : ℝ := l.sum / l.length

/-- `distanceFromThreshold` (popup.js:927): `Math.abs(avgProb - 0.5)`. -/
noncomputable def distanceFromThreshold (l : List ℝ) : ℝ := |avgProb l - 0.5|

/-- `Math.min(...allProbabilities)` (popup.js:935); `0` for the empty list,
which the caller never passes. -/
noncomputable def minProb : List ℝ → ℝ
  | [] => 0
  | x :: xs => xs.foldl min x

/-- `Math.max(...allProbabilities)` (popup.js:936). -/
noncomputable def maxProb : List ℝ → ℝ
  | [] => 0
  | x :: xs => xs.foldl max x

/-- `range = maxProb - minProb` (popup.js:937). -/
noncomputable def rangeOf (l : List ℝ) : ℝ := maxProb l - minProb l

/-- `stdDev` (popup.js:938-940): population standard deviation
`sqrt(sum((p - avg)^2) / n)`. -/
noncomputable def stdDev (l : List ℝ) : ℝ :=
  Real.sqrt ((l.map (fun p => (p - avgProb l) ^ 2)).sum / l.length)

/-- `majorVotes` (popup.js:943): passes with `p >= 0.5`. -/
noncomputable def majorVotes (l : List ℝ) : ℕ :=
  (l.filter (fun p => 0.5 ≤ p)).length

/-- `minorVotes` (popup.js:944): passes with `p < 0.5`. -/
noncomputable def minorVotes (l : List ℝ) : ℕ :=
  (l.filter (fun p => p < 0.5)).length

/-- `agreement` (popup.js:945): majority fraction. -/
noncomputable def agreement (l : List ℝ) : ℝ :=
  (max (majorVotes l) (minorVotes l) : ℝ) / l.length

/-- The confidence computation of `analyzeFrame` (popup.js:929-964), before
the final clamp.  Single pass: `min(0.95, 0.5 + distance*1.5)`.  Multiple
passes: start from the agreement fraction, boost by 1.2 (capped at 0.95)
when `stdDev < 0.1` and `range < 0.2`, add `distance*0.4` (capped at 0.95),
and multiply by 0.85 when `stdDev > 0.15` or `range > 0.3`. -/
noncomputable def rawConfidence (l : List ℝ) : ℝ :=
  if l.length = 1 then
    min 0.95 (0.5 + distanceFromThreshold l * 1.5)
  else
    let c0 := agreement l
    let c1 := if stdDev l < 0.1 ∧ rangeOf l < 0.2 then min 0.95 (c0 * 1.2) else c0
    let c2 := min 0.95 (c1 + distanceFromThreshold l * 0.4)
    if 0.15 < stdDev l ∨ 0.3 < rangeOf l then c2 * 0.85 else c2

/-- `confidence = Math.max(0.55, Math.min(0.95, confidence))` (popup.js:967). -/
noncomputable def clampedConfidence (l : List ℝ) : ℝ :=
  max 0.55 (min 0.95 (rawConfidence l))

/-- `MAJOR_THRESHOLD` (popup.js:972). -/
noncomputable def MAJOR_THRESHOLD : ℝ := 0.52

/-- The two verdict categories (popup.js:973). -/
inductive Verdict where
  | MAJOR
  | MINOR
deriving DecidableEq

/-- `prediction = avgProb >= MAJOR_THRESHOLD ? 'MAJOR' : 'MINOR'`
(popup.js:973). -/
noncomputable def verdictOf (p : ℝ) : Verdict :=
  if MAJOR_THRESHOLD ≤ p then Verdict.MAJOR else Verdict.MINOR

/-- The boundary reference of the near-threshold check (popup.js:977):
`isMinor ? (1 - MAJOR_THRESHOLD) : MAJOR_THRESHOLD`. -/
noncomputable def boundaryRef (p : ℝ) : ℝ :=
  if verdictOf p = Verdict.MINOR then 1 - MAJOR_THRESHOLD else MAJOR_THRESHOLD

/-- `thresholdDistance` (popup.js:977). -/
noncomputable def thresholdDistance (p : ℝ) : ℝ := |p - boundaryRef p|

/-- The near-boundary confidence penalty (popup.js:978-982): within margin
0.08 of the boundary reference the confidence is multiplied by 0.85, with
the 0.55 floor re-applied. -/
noncomputable def adjustedConfidence (p c : ℝ) : ℝ :=
  if thresholdDistance p < 0.08 then max 0.55 (c * 0.85) else c

/-- The `result` object built by `analyzeFrame` (popup.js:984-991). -/
structure FinalResult where
  prediction : Verdict
  confidence : ℝ
  isMinor : Bool
  probability : ℝ
  inferenceCount : ℕ

/-- Assembly of the final classification result from the collected pass
probabilities (popup.js:922-991). -/
noncomputable def finalResult (probs : List ℝ) : FinalResult :=
  { prediction := verdictOf (avgProb probs)
    confidence := adjustedConfidence (avgProb probs) (clampedConfidence probs)
    isMinor := decide (verdictOf (avgProb probs) = Verdict.MINOR)
    probability := avgProb probs
    inferenceCount := probs.length }

/-- Outcome of the `SET_SAFE` message to the policy sink as observed by
`updateSafeSearch`: `response.ok` truthy, `response.error` set, or the
send itself threw (popup.js:690-714). -/
inductive SinkResponse where
  | ok
  | errorResp
  | exn

/-- What one invocation of `updateSafeSearch` produces: the new
`state.lastMinorState`, the list of `SET_SAFE` payloads sent to the sink,
and whether the error badge (the user-visible caveat) is shown. -/
structure UpdateOutcome where
  newLast : Option Bool
  calls : List Bool
  errorBadge : Bool

/-- `updateSafeSearch` (popup.js:673-715).  If `state.lastMinorState`
already equals the new verdict, return immediately without messaging the
sink.  Otherwise record the new state FIRST (popup.js:679), then send one
`SET_SAFE` message; the response — success, reported error, or exception —
only changes the UI badges, never the recorded state.  (The badges were
cleared at the start of the cycle, popup.js:763, so the early-return branch
leaves them off.) -/
def updateSafeSearch (lastMinorState : Option Bool) (isMinor : Bool)
    (resp : SinkResponse) : UpdateOutcome :=
  if lastMinorState = some isMinor then
    ⟨lastMinorState, [], false⟩
  else
    match resp with
    | .ok => ⟨some isMinor, [isMinor], false⟩
    | .errorResp => ⟨some isMinor, [isMinor], true⟩
    | .exn => ⟨some isMinor, [isMinor], true⟩

/-- The state persisted across cycles that the pipeline writes: the
recorded minor/major verdict (`state.lastMinorState`, loaded from the
`isMinor` storage key) and the `verificationAllowedUntil` timestamp. -/
structure PolicyState where
  lastMinorState : Option Bool
  verificationAllowedUntil : Option ℤ

/-- Everything one analysis cycle produces: the updated persistent state,
the `SET_SAFE` payloads sent to the policy sink, and the classification
result (`none` when the cycle failed). -/
structure CycleOutcome where
  policy : PolicyState
  sinkCalls : List Bool
  result : Option FinalResult

/-- One inference pass (popup.js:868-890): `none` when the classifier
capability threw, otherwise the interpreted probability, kept only when it
is a number in `[0,1]` (popup.js:883; the NaN guard is vacuous over ℝ). -/
noncomputable def passProb (pass : Option (List ℝ)) : Option ℝ :=
  match pass with
  | none => none
  | some outputData =>
      match interpretOutputToProbability outputData with
      | none => none
      | some prob => if 0 ≤ prob ∧ prob ≤ 1 then some prob else none

/-- The `allProbabilities` accumulation loop (popup.js:854-891): each pass
either contributes its interpreted probability or is skipped. -/
noncomputable def collectProbs (passes : List (Option (List ℝ))) : List ℝ :=
  passes.filterMap passProb

/-- The pass set finally aggregated (popup.js:854-919): the collected
probabilities, or — when every pass failed — the single fallback pass
(popup.js:896-915), which is interpreted by the same rule; `none` when the
fallback also yields no valid probability (the cycle then fails). -/
noncomputable def analyzeProbs (passes : List (Option (List ℝ)))
    (fallback : Option (List ℝ)) : Option (List ℝ) :=
  let probs := collectProbs passes
  if probs.isEmpty then (passProb fallback).map (fun p => [p]) else some probs

/-- One whole `analyzeFrame` cycle (popup.js:749-1049) as a function of the
pre-cycle persistent state, the current time, the raw classifier outputs of
the ensemble passes and of the fallback pass, and the sink's response.  On
failure (the catch block) nothing is written and no message is sent; on
success the verdict drives `updateSafeSearch` and the verification window
is set to `Date.now() + 60*60*1000` (popup.js:1016-1020). -/
noncomputable def analyzeFrameStep (s : PolicyState) (now : ℤ)
    (passes : List (Option (List ℝ))) (fallback : Option (List ℝ))
    (resp : SinkResponse) : CycleOutcome :=
  match analyzeProbs passes fallback with
  | none => ⟨s, [], none⟩
  | some probs =>
      let r := finalResult probs
      let u := updateSafeSearch s.lastMinorState r.isMinor resp
      ⟨⟨u.newLast, some (now + 60 * 60 * 1000)⟩, u.calls, some r⟩

/-! ### Basic facts about the clamp and the output interpreter -/

lemma clamp01_nonneg (x : ℝ) : 0 ≤ clamp01 x := le_max_left 0 _

lemma clamp01_le_one (x : ℝ) : clamp01 x ≤ 1 :=
  max_le (by norm_num) (min_le_left 1 x)

lemma clamp01_eq_self {x : ℝ} (h0 : 0 ≤ x) (h1 : x ≤ 1) : clamp01 x = x := by
  unfold clamp01
  rw [min_eq_right h1, max_eq_right h0]

lemma interpret_single (x : ℝ) :
    interpretOutputToProbability [x] =
      some (clamp01 (if 0 ≤ x ∧ x ≤ 1 then x else 1 / (1 + Real.exp (-x)))) := rfl

lemma interpret_pair_raw (a b : ℝ) :
    interpretOutputToProbability [a, b] =
      some (clamp01 (Real.exp (b - max a b) /
        (Real.exp (a - max a b) + Real.exp (b - max a b)))) := rfl

lemma interpret_long (x y z : ℝ) (rest : List ℝ) :
    interpretOutputToProbability (x :: y :: z :: rest) = none := rfl

lemma sigmoid_pos (x : ℝ) : 0 < 1 / (1 + Real.exp (-x)) := by positivity

lemma sigmoid_le_one (x : ℝ) : 1 / (1 + Real.exp (-x)) ≤ 1 := by
  rw [div_le_one (by positivity)]
  have := (Real.exp_pos (-x)).le
  linarith

/-- The max-stabilised softmax of the source equals the textbook softmax
weight of index 1. -/
lemma softmax_shift (a b : ℝ) :
    Real.exp (b - max a b) / (Real.exp (a - max a b) + Real.exp (b - max a b)) =
      Real.exp b / (Real.exp a + Real.exp b) := by
  have hm := Real.exp_ne_zero (max a b)
  have hab : Real.exp a + Real.exp b ≠ 0 := by positivity
  rw [Real.exp_sub, Real.exp_sub]
  field_simp

lemma softmax_nonneg (a b : ℝ) : 0 ≤ Real.exp b / (Real.exp a + Real.exp b) := by
  positivity

lemma softmax_le_one (a b : ℝ) : Real.exp b / (Real.exp a + Real.exp b) ≤ 1 := by
  rw [div_le_one (by positivity)]
  have := (Real.exp_pos a).le
  linarith

lemma interpret_single_inrange {x : ℝ} (h0 : 0 ≤ x) (h1 : x ≤ 1) :
    interpretOutputToProbability [x] = some x := by
  rw [interpret_single, if_pos ⟨h0, h1⟩, clamp01_eq_self h0 h1]

lemma interpret_single_logit {x : ℝ} (h : ¬(0 ≤ x ∧ x ≤ 1)) :
    interpretOutputToProbability [x] = some (1 / (1 + Real.exp (-x))) := by
  rw [interpret_single, if_neg h,
    clamp01_eq_self (sigmoid_pos x).le (sigmoid_le_one x)]

lemma interpret_pair (a b : ℝ) :
    interpretOutputToProbability [a, b] =
      some (Real.exp b / (Real.exp a + Real.exp b)) := by
  rw [interpret_pair_raw, softmax_shift,
    clamp01_eq_self (softmax_nonneg a b) (softmax_le_one a b)]

lemma interpret_bounds {l : List ℝ} {r : ℝ}
    (h : interpretOutputToProbability l = some r) : 0 ≤ r ∧ r ≤ 1 := by
  match l with
  | [] => exact absurd h (by simp [interpretOutputToProbability])
  | [x] =>
      rw [interpret_single] at h
      injection h with h
      exact h ▸ ⟨clamp01_nonneg _, clamp01_le_one _⟩
  | [a, b] =>
      rw [interpret_pair_raw] at h
      injection h with h
      exact h ▸ ⟨clamp01_nonneg _, clamp01_le_one _⟩
  | x :: y :: z :: rest =>
      rw [interpret_long] at h
      cases h

/-- C4: `interpretOutputToProbability` treats a single in-range value as the
probability itself, a single out-of-range value as a logit fed to the
logistic function `1/(1+e^{-x})`, and a pair of values as two logits whose
softmax weight at index 1 is returned; every returned probability lies in
`[0,1]`. -/
theorem c4_output_interpretation (x a b r : ℝ) (l : List ℝ) :
    (0 ≤ x → x ≤ 1 → interpretOutputToProbability [x] = some x) ∧
    (¬(0 ≤ x ∧ x ≤ 1) →
      interpretOutputToProbability [x] = some (1 / (1 + Real.exp (-x)))) ∧
    interpretOutputToProbability [a, b] =
      some (Real.exp b / (Real.exp a + Real.exp b)) ∧
    (interpretOutputToProbability l = some r → 0 ≤ r ∧ r ≤ 1) :=
  ⟨fun h0 h1 => interpret_single_inrange h0 h1,
   fun h => interpret_single_logit h,
   interpret_pair a b,
   fun h => interpret_bounds h⟩

/-- Witness for C4 at concrete inputs: `[0.5]` is returned as-is, `[2]` goes
through the logistic function, and the returned value `0.5` is in bounds. -/
theorem c4_output_interpretation_witness :
    interpretOutputToProbability [(0.5 : ℝ)] = some 0.5 ∧
    interpretOutputToProbability [(2 : ℝ)] = some (1 / (1 + Real.exp (-2))) ∧
    (0 : ℝ) ≤ 0.5 ∧ (0.5 : ℝ) ≤ 1 :=
  ⟨(c4_output_interpretation 0.5 0 0 0.5 [0.5]).1 (by norm_num) (by norm_num),
   (c4_output_interpretation 2 0 0 0.5 [0.5]).2.1 (by norm_num),
   ((c4_output_interpretation 0.5 0 0 0.5 [0.5]).2.2.2
     ((c4_output_interpretation 0.5 0 0 0.5 [0.5]).1 (by norm_num) (by norm_num))).1,
   ((c4_output_interpretation 0.5 0 0 0.5 [0.5]).2.2.2
     ((c4_output_interpretation 0.5 0 0 0.5 [0.5]).1 (by norm_num) (by norm_num))).2⟩

/-! ### Confidence bounds (C1) -/

lemma clampedConfidence_bounds (l : List ℝ) :
    0.55 ≤ clampedConfidence l ∧ clampedConfidence l ≤ 0.95 :=
  ⟨le_max_left _ _, max_le (by norm_num) (min_le_left _ _)⟩

lemma adjustedConfidence_bounds {c : ℝ} (p : ℝ) (h0 : 0.55 ≤ c)
    (h1 : c ≤ 0.95) :
    0.55 ≤ adjustedConfidence p c ∧ adjustedConfidence p c ≤ 0.95 := by
  unfold adjustedConfidence
  split
  · refine ⟨le_max_left _ _, max_le (by norm_num) ?_⟩
    nlinarith
  · exact ⟨h0, h1⟩

/-- C1: for every non-empty list of per-pass probabilities the confidence
reported by `analyzeFrame` — after the `[0.55, 0.95]` clamp and the
near-boundary penalty — lies in the closed interval `[0.55, 0.95]`. -/
theorem c1_confidence_in_bounds (l : List ℝ) (_h : l ≠ []) :
    0.55 ≤ (finalResult l).confidence ∧ (finalResult l).confidence ≤ 0.95 := by
  have hc := clampedConfidence_bounds l
  exact adjustedConfidence_bounds (avgProb l) hc.1 hc.2

/-- Witness for C1 at the single extreme pass `[0.0]`. -/
theorem c1_confidence_in_bounds_witness :
    0.55 ≤ (finalResult [(0 : ℝ)]).confidence ∧
    (finalResult [(0 : ℝ)]).confidence ≤ 0.95 :=
  c1_confidence_in_bounds [0] (by simp)

/-! ### Verdict threshold and near-boundary penalty (C2) -/

/-- C2: the verdict is MAJOR exactly when the aggregated probability is at
least 0.52 and MINOR exactly when it is below 0.52; the boundary reference
is 0.52 for MAJOR and `1 - 0.52 = 0.48` for MINOR; and within distance 0.08
of the boundary reference the confidence is multiplied by 0.85 with the
0.55 floor re-applied, while otherwise it is unchanged. -/
theorem c2_verdict_and_penalty (p c : ℝ) :
    (verdictOf p = Verdict.MAJOR ↔ 0.52 ≤ p) ∧
    (verdictOf p = Verdict.MINOR ↔ p < 0.52) ∧
    boundaryRef p = (if verdictOf p = Verdict.MINOR then 0.48 else 0.52) ∧
    (|p - boundaryRef p| < 0.08 →
      adjustedConfidence p c = max 0.55 (c * 0.85)) ∧
    (¬ |p - boundaryRef p| < 0.08 → adjustedConfidence p c = c) := by
  refine ⟨?_, ?_, ?_, ?_, ?_⟩
  · unfold verdictOf MAJOR_THRESHOLD
    split_ifs with h
    · simpa using h
    · simpa using h
  · unfold verdictOf MAJOR_THRESHOLD
    split_ifs with h
    · simp [h.not_lt]
    · simp [lt_of_not_le h]
  · unfold boundaryRef MAJOR_THRESHOLD
    split_ifs <;> norm_num
  · intro h
    unfold adjustedConfidence thresholdDistance
    rw [if_pos h]
  · intro h
    unfold adjustedConfidence thresholdDistance
    rw [if_neg h]

/-- Witness for C2 at the aggregated probability `0.5` (a MINOR verdict,
distance `0.02` from the boundary reference `0.48`) with confidence `0.9`. -/
theorem c2_verdict_and_penalty_witness :
    verdictOf 0.5 = Verdict.MINOR ∧
    adjustedConfidence 0.5 0.9 = max 0.55 (0.9 * 0.85) :=
  ⟨(c2_verdict_and_penalty 0.5 0.9).2.1.mpr (by norm_num),
   (c2_verdict_and_penalty 0.5 0.9).2.2.2.1 (by
      norm_num [boundaryRef, verdictOf, MAJOR_THRESHOLD, abs_lt])⟩

/-! ### Permutation invariance of the aggregation (C3) -/

lemma foldl_min_mem (xs : List ℝ) : ∀ a : ℝ, xs.foldl min a ∈ a :: xs := by
  induction xs with
  | nil => intro a; simp
  | cons x xs ih =>
      intro a
      simp only [List.foldl_cons]
      rcases List.mem_cons.mp (ih (min a x)) with he | hm
      · rw [he]
        rcases min_choice a x with h' | h' <;> rw [h'] <;> simp
      · simp [hm]

lemma foldl_min_le (xs : List ℝ) : ∀ a y : ℝ, y ∈ a :: xs → xs.foldl min a ≤ y := by
  induction xs with
  | nil =>
      intro a y hy
      simp only [List.mem_singleton] at hy
      simp [hy]
  | cons x xs ih =>
      intro a y hy
      simp only [List.foldl_cons]
      rcases List.mem_cons.mp hy with h1 | hy'
      · subst h1
        exact le_trans (ih _ _ (List.mem_cons_self _ _)) (min_le_left _ _)
      · rcases List.mem_cons.mp hy' with h2 | hy''
        · subst h2
          exact le_trans (ih _ _ (List.mem_cons_self _ _)) (min_le_right _ _)
        · exact ih _ _ (List.mem_cons.mpr (Or.inr hy''))

lemma foldl_max_mem (xs : List ℝ) : ∀ a : ℝ, xs.foldl max a ∈ a :: xs := by
  induction xs with
  | nil => intro a; simp
  | cons x xs ih =>
      intro a
      simp only [List.foldl_cons]
      rcases List.mem_cons.mp (ih (max a x)) with he | hm
      · rw [he]
        rcases max_choice a x with h' | h' <;> rw [h'] <;> simp
      · simp [hm]

lemma le_foldl_max (xs : List ℝ) : ∀ a y : ℝ, y ∈ a :: xs → y ≤ xs.foldl max a := by
  induction xs with
  | nil =>
      intro a y hy
      simp only [List.mem_singleton] at hy
      simp [hy]
  | cons x xs ih =>
      intro a y hy
      simp only [List.foldl_cons]
      rcases List.mem_cons.mp hy with h1 | hy'
      · subst h1
        exact le_trans (le_max_left _ _) (ih _ _ (List.mem_cons_self _ _))
      · rcases List.mem_cons.mp hy' with h2 | hy''
        · subst h2
          exact le_trans (le_max_right _ _) (ih _ _ (List.mem_cons_self _ _))
        · exact ih _ _ (List.mem_cons.mpr (Or.inr hy''))

lemma minProb_mem : ∀ {l : List ℝ}, l ≠ [] → minProb l ∈ l
  | x :: xs, _ => foldl_min_mem xs x

lemma minProb_le {l : List ℝ} {y : ℝ} (hy : y ∈ l) : minProb l ≤ y := by
  match l with
  | [] => cases hy
  | x :: xs => exact foldl_min_le xs x y hy

lemma maxProb_mem : ∀ {l : List ℝ}, l ≠ [] → maxProb l ∈ l
  | x :: xs, _ => foldl_max_mem xs x

lemma le_maxProb {l : List ℝ} {y : ℝ} (hy : y ∈ l) : y ≤ maxProb l := by
  match l with
  | [] => cases hy
  | x :: xs => exact le_foldl_max xs x y hy

lemma minProb_perm {l l' : List ℝ} (h : l.Perm l') : minProb l = minProb l' := by
  match l, l' with
  | [], [] => rfl
  | [], y :: ys => exact absurd h.length_eq (by simp)
  | x :: xs, [] => exact absurd h.length_eq (by simp)
  | x :: xs, y :: ys =>
      refine le_antisymm ?_ ?_
      · exact minProb_le (h.mem_iff.mpr (minProb_mem (by simp)))
      · exact minProb_le (h.mem_iff.mp (minProb_mem (by simp)))

lemma maxProb_perm {l l' : List ℝ} (h : l.Perm l') : maxProb l = maxProb l' := by
  match l, l' with
  | [], [] => rfl
  | [], y :: ys => exact absurd h.length_eq (by simp)
  | x :: xs, [] => exact absurd h.length_eq (by simp)
  | x :: xs, y :: ys =>
      refine le_antisymm ?_ ?_
      · exact le_maxProb (h.mem_iff.mp (maxProb_mem (by simp)))
      · exact le_maxProb (h.mem_iff.mpr (maxProb_mem (by simp)))

lemma avgProb_perm {l l' : List ℝ} (h : l.Perm l') : avgProb l = avgProb l' := by
  unfold avgProb
  rw [h.sum_eq, h.length_eq]

lemma distanceFromThreshold_perm {l l' : List ℝ} (h : l.Perm l') :
    distanceFromThreshold l = distanceFromThreshold l' := by
  unfold distanceFromThreshold
  rw [avgProb_perm h]

lemma rangeOf_perm {l l' : List ℝ} (h : l.Perm l') : rangeOf l = rangeOf l' := by
  unfold rangeOf
  rw [minProb_perm h, maxProb_perm h]

lemma stdDev_perm {l l' : List ℝ} (h : l.Perm l') : stdDev l = stdDev l' := by
  unfold stdDev
  rw [avgProb_perm h, (h.map (fun p => (p - avgProb l') ^ 2)).sum_eq, h.length_eq]

lemma majorVotes_perm {l l' : List ℝ} (h : l.Perm l') :
    majorVotes l = majorVotes l' := by
  unfold majorVotes
  exact (h.filter _).length_eq

lemma minorVotes_perm {l l' : List ℝ} (h : l.Perm l') :
    minorVotes l = minorVotes l' := by
  unfold minorVotes
  exact (h.filter _).length_eq

lemma agreement_perm {l l' : List ℝ} (h : l.Perm l') :
    agreement l = agreement l' := by
  unfold agreement
  rw [majorVotes_perm h, minorVotes_perm h, h.length_eq]

lemma rawConfidence_perm {l l' : List ℝ} (h : l.Perm l') :
    rawConfidence l = rawConfidence l' := by
  simp only [rawConfidence]
  rw [h.length_eq, distanceFromThreshold_perm h, stdDev_perm h, rangeOf_perm h,
    agreement_perm h]

lemma clampedConfidence_perm {l l' : List ℝ} (h : l.Perm l') :
    clampedConfidence l = clampedConfidence l' := by
  unfold clampedConfidence
  rw [rawConfidence_perm h]

lemma finalResult_perm {l l' : List ℝ} (h : l.Perm l') :
    finalResult l = finalResult l' := by
  unfold finalResult
  rw [avgProb_perm h, clampedConfidence_perm h, h.length_eq]

/-- C3: for every non-empty list of per-pass probabilities the aggregated
probability is the arithmetic mean of the list, and the entire aggregated
result — probability, confidence (computed from the mean, the agreement
fraction, the population standard deviation and the max-min range), verdict
and pass count — is invariant under any permutation of the list. -/
theorem c3_mean_and_permutation_invariance (l l' : List ℝ) (_h : l ≠ [])
    (hp : l.Perm l') :
    avgProb l = l.sum / l.length ∧
    avgProb l = avgProb l' ∧
    finalResult l = finalResult l' :=
  ⟨rfl, avgProb_perm hp, finalResult_perm hp⟩

/-- Witness for C3 on the two-pass list `[0.3, 0.7]` and its reversal. -/
theorem c3_mean_and_permutation_invariance_witness :
    avgProb [(0.3 : ℝ), 0.7] =
      ([(0.3 : ℝ), 0.7]).sum / ([(0.3 : ℝ), 0.7]).length ∧
    avgProb [(0.3 : ℝ), 0.7] = avgProb [(0.7 : ℝ), 0.3] ∧
    finalResult [(0.3 : ℝ), 0.7] = finalResult [(0.7 : ℝ), 0.3] :=
  c3_mean_and_permutation_invariance [0.3, 0.7] [0.7, 0.3] (by simp)
    (List.Perm.swap 0.7 0.3 [])

/-! ### Failure of every pass including the fallback (C6) -/

/-- C6: when the classifier capability fails on every attempted padding pass
and the fallback pass also fails, the cycle ends in the failed state: no
verdict is produced, no message is sent to the policy sink, and the
persisted minor/policy state and verification-window timestamp are exactly
the pre-cycle ones. -/
theorem c6_inference_unavailable (s : PolicyState) (now : ℤ)
    (passes : List (Option (List ℝ))) (resp : SinkResponse)
    (hall : ∀ x ∈ passes, x = none) :
    analyzeFrameStep s now passes none resp = ⟨s, [], none⟩ := by
  have hc : collectProbs passes = [] := by
    apply List.filterMap_eq_nil_iff.mpr
    intro a ha
    rw [hall a ha]
    rfl
  have h2 : analyzeProbs passes none = none := by
    unfold analyzeProbs
    rw [hc]
    rfl
  unfold analyzeFrameStep
  rw [h2]

/-- Witness for C6: two failed passes and a failed fallback leave the state
`⟨some true, some 5⟩` untouched. -/
theorem c6_inference_unavailable_witness :
    analyzeFrameStep ⟨some true, some 5⟩ 0 [none, none] none SinkResponse.exn =
      ⟨⟨some true, some 5⟩, [], none⟩ :=
  c6_inference_unavailable ⟨some true, some 5⟩ 0 [none, none] SinkResponse.exn
    (by simp)

/-! ### Verification window (C7) -/

/-- C7: after every analysis cycle that completes with a verdict — whatever
the verdict and whatever the policy sink answered — the persisted
verification-window timestamp is set to exactly the current time plus
3600000 milliseconds (one hour). -/
theorem c7_verification_window (s : PolicyState) (now : ℤ)
    (passes : List (Option (List ℝ))) (fallback : Option (List ℝ))
    (resp : SinkResponse) (probs : List ℝ)
    (h : analyzeProbs passes fallback = some probs) :
    (analyzeFrameStep s now passes fallback
        resp).policy.verificationAllowedUntil = some (now + 3600000) := by
  unfold analyzeFrameStep
  rw [h]
  norm_num

lemma analyzeProbs_single_half :
    analyzeProbs [some [(0.5 : ℝ)]] none = some [0.5] := by
  have h1 : interpretOutputToProbability [(0.5 : ℝ)] = some 0.5 :=
    interpret_single_inrange (by norm_num) (by norm_num)
  have hp : passProb (some [(0.5 : ℝ)]) = some 0.5 := by
    simp only [passProb]
    rw [h1]
    norm_num
  have hc : collectProbs [some [(0.5 : ℝ)]] = [0.5] := by
    simp [collectProbs, hp]
  unfold analyzeProbs
  rw [hc]
  rfl

/-- Witness for C7: a completed single-pass cycle at time 0 sets the window
to 3600000 ms. -/
theorem c7_verification_window_witness :
    (analyzeFrameStep ⟨none, none⟩ 0 [some [(0.5 : ℝ)]] none
        SinkResponse.ok).policy.verificationAllowedUntil = some 3600000 := by
  have h := c7_verification_window ⟨none, none⟩ 0 [some [(0.5 : ℝ)]] none
    SinkResponse.ok [0.5] analyzeProbs_single_half
  simpa using h

/-! ### Idempotence of the policy controller (C8, C10) -/

/-- C8: invoking the policy controller twice in a row with the same verdict
issues the `SET_SAFE` sink call at most once: the second invocation with an
unchanged verdict sends no message. -/
theorem c8_policy_idempotent (last : Option Bool) (m : Bool)
    (r1 r2 : SinkResponse) :
    (updateSafeSearch (updateSafeSearch last m r1).newLast m r2).calls = [] ∧
    (updateSafeSearch last m r1).calls.length +
      (updateSafeSearch (updateSafeSearch last m r1).newLast m r2).calls.length
        ≤ 1 := by
  by_cases h : last = some m
  · cases r1 <;> cases r2 <;> simp [updateSafeSearch, h]
  · cases r1 <;> cases r2 <;> simp [updateSafeSearch, h]

/-- C10: `updateSafeSearch` records the new verdict state before the sink
call and never reverts it — the recorded state is `some m` for every sink
response, it is the same whatever the response, and after a failed call a
repeat invocation with the same verdict issues no retry. -/
theorem c10_no_retry_after_failure (last : Option Bool) (m : Bool)
    (r r' : SinkResponse) :
    (updateSafeSearch last m r).newLast = some m ∧
    (updateSafeSearch last m r).newLast = (updateSafeSearch last m r').newLast ∧
    (updateSafeSearch (updateSafeSearch last m SinkResponse.errorResp).newLast
        m r').calls = [] := by
  by_cases h : last = some m <;> cases r <;> cases r' <;>
    simp [updateSafeSearch, h]

/-! ### Unsupported output shapes (C9) -/

lemma interpret_bad_length {out : List ℝ}
    (h : ¬(out.length = 1 ∨ out.length = 2)) :
    interpretOutputToProbability out = none := by
  match out with
  | [] => rfl
  | [x] => exact absurd (Or.inl rfl) h
  | [a, b] => exact absurd (Or.inr rfl) h
  | x :: y :: z :: rest => rfl

lemma passProb_none_of_bad_length {out : List ℝ}
    (h : ¬(out.length = 1 ∨ out.length = 2)) :
    passProb (some out) = none := by
  simp only [passProb]
  rw [interpret_bad_length h]

/-- C9: a raw model output whose length is neither 1 nor 2 is interpreted to
no probability; in the collection loop that pass alone is discarded (the
remaining passes contribute unchanged) rather than aborting the analysis;
and the cycle fails exactly when the remaining pass set is empty and the
fallback pass also yields no valid probability. -/
theorem c9_bad_shape_not_fatal (pre post : List (Option (List ℝ)))
    (out : List ℝ) (fallback : Option (List ℝ))
    (h : ¬(out.length = 1 ∨ out.length = 2)) :
    interpretOutputToProbability out = none ∧
    collectProbs (pre ++ some out :: post) = collectProbs (pre ++ post) ∧
    (analyzeProbs (pre ++ some out :: post) fallback = none ↔
      collectProbs (pre ++ post) = [] ∧ passProb fallback = none) := by
  have h1 := interpret_bad_length h
  have h2 : collectProbs (pre ++ some out :: post) = collectProbs (pre ++ post) := by
    unfold collectProbs
    rw [List.filterMap_append, List.filterMap_append,
      List.filterMap_cons_none (passProb_none_of_bad_length h)]
  refine ⟨h1, h2, ?_⟩
  unfold analyzeProbs
  rw [h2]
  by_cases hres : collectProbs (pre ++ post) = []
  · simp [hres, Option.map_eq_none']
  · simp [hres, List.isEmpty_iff]

/-- Witness for C9 with the length-3 output `[1, 2, 3]` as the only pass. -/
theorem c9_bad_shape_not_fatal_witness :
    interpretOutputToProbability [(1 : ℝ), 2, 3] = none ∧
    collectProbs [some [(1 : ℝ), 2, 3]] = collectProbs [] ∧
    (analyzeProbs [some [(1 : ℝ), 2, 3]] none = none ↔
      collectProbs ([] : List (Option (List ℝ))) = [] ∧
        passProb (none : Option (List ℝ)) = none) := by
  have h := c9_bad_shape_not_fatal [] [] [(1 : ℝ), 2, 3] none (by simp)
  simpa using h

/-! ### Scenario A (C5) -/

/-- The claim says the raw output `[0.2, 0.8]` yields probability `0.8`, but
`interpretOutputToProbability` applies softmax to every length-2 output:
the probability it returns is `e^{0.8}/(e^{0.2}+e^{0.8}) = 1/(1+e^{-0.6})
≈ 0.646`, not `0.8`. -/
theorem c5_counterexample :
    interpretOutputToProbability [(0.2 : ℝ), 0.8] ≠ some 0.8 := by
  rw [interpret_pair]
  intro hcontra
  injection hcontra with hcontra
  have h2 : Real.exp 0.8 = 0.8 * (Real.exp 0.2 + Real.exp 0.8) :=
    (div_eq_iff (by positivity)).mp hcontra
  have h3 : Real.exp 0.8 = Real.exp 0.2 * Real.exp 0.6 := by
    rw [← Real.exp_add]
    norm_num
  have h4 : Real.exp 0.6 < 3 := by
    calc Real.exp 0.6 ≤ Real.exp 1 := Real.exp_le_exp.mpr (by norm_num)
    _ < 2.7182818286 := Real.exp_one_lt_d9
    _ < 3 := by norm_num
  have h5 : 0 < Real.exp 0.2 := Real.exp_pos _
  nlinarith [h2, h3, h4, h5]

lemma softmax_0208_ge : (0.52 : ℝ) ≤ Real.exp 0.8 / (Real.exp 0.2 + Real.exp 0.8) := by
  have h3 : Real.exp 0.8 = Real.exp 0.2 * Real.exp 0.6 := by
    rw [← Real.exp_add]
    norm_num
  have h16 : (1.6 : ℝ) ≤ Real.exp 0.6 := by
    have := Real.add_one_le_exp (0.6 : ℝ)
    linarith
  rw [le_div_iff₀ (by positivity), h3]
  nlinarith [Real.exp_pos (0.2 : ℝ)]

/-- C5 amended: a single-pass analysis whose raw model output is `[0.2, 0.8]`
yields the softmax probability `e^{0.8}/(e^{0.2}+e^{0.8}) ≈ 0.646` (not
`0.8`) for the adult class; that probability is still at least 0.52, so the
verdict is MAJOR, the policy controller records the cleared state and sends
the disable call, and the verification window is extended to now + 1 hour. -/
theorem c5_scenario_a (s : PolicyState) (now : ℤ) (resp : SinkResponse)
    (h : s.lastMinorState = none) :
    analyzeFrameStep s now [some [(0.2 : ℝ), 0.8]] none resp =
      ⟨⟨some false, some (now + 3600000)⟩, [false],
        some (finalResult [Real.exp 0.8 / (Real.exp 0.2 + Real.exp 0.8)])⟩ ∧
    (finalResult [Real.exp 0.8 / (Real.exp 0.2 + Real.exp 0.8)]).prediction =
      Verdict.MAJOR ∧
    (finalResult [Real.exp 0.8 / (Real.exp 0.2 + Real.exp 0.8)]).probability =
      Real.exp 0.8 / (Real.exp 0.2 + Real.exp 0.8) := by
  have hq0 := softmax_nonneg (0.2 : ℝ) 0.8
  have hq1 := softmax_le_one (0.2 : ℝ) 0.8
  have hpass : passProb (some [(0.2 : ℝ), 0.8]) =
      some (Real.exp 0.8 / (Real.exp 0.2 + Real.exp 0.8)) := by
    simp only [passProb]
    rw [interpret_pair]
    simp [hq0, hq1]
  have hcol : collectProbs [some [(0.2 : ℝ), 0.8]] =
      [Real.exp 0.8 / (Real.exp 0.2 + Real.exp 0.8)] := by
    simp [collectProbs, hpass]
  have hana : analyzeProbs [some [(0.2 : ℝ), 0.8]] none =
      some [Real.exp 0.8 / (Real.exp 0.2 + Real.exp 0.8)] := by
    unfold analyzeProbs
    rw [hcol]
    rfl
  have havg : avgProb [Real.exp 0.8 / (Real.exp 0.2 + Real.exp 0.8)] =
      Real.exp 0.8 / (Real.exp 0.2 + Real.exp 0.8) := by
    simp [avgProb]
  have hverd : verdictOf (Real.exp 0.8 / (Real.exp 0.2 + Real.exp 0.8)) =
      Verdict.MAJOR := by
    unfold verdictOf MAJOR_THRESHOLD
    rw [if_pos softmax_0208_ge]
  have hmin : (finalResult
      [Real.exp 0.8 / (Real.exp 0.2 + Real.exp 0.8)]).isMinor = false := by
    show decide (verdictOf (avgProb _) = Verdict.MINOR) = false
    rw [havg, hverd]
    rfl
  refine ⟨?_, ?_, ?_⟩
  · unfold analyzeFrameStep
    rw [hana]
    cases resp <;> simp [updateSafeSearch, h, hmin]
  · show verdictOf (avgProb _) = Verdict.MAJOR
    rw [havg, hverd]
  · show avgProb _ = _
    exact havg

/-- Witness for C5 (amended) at the concrete pre-cycle state `⟨none, none⟩`,
time 0 and a successful sink call. -/
theorem c5_scenario_a_witness :
    analyzeFrameStep ⟨none, none⟩ 0 [some [(0.2 : ℝ), 0.8]] none
        SinkResponse.ok =
      ⟨⟨some false, some 3600000⟩, [false],
        some (finalResult [Real.exp 0.8 / (Real.exp 0.2 + Real.exp 0.8)])⟩ := by
  have h := (c5_scenario_a ⟨none, none⟩ 0 SinkResponse.ok rfl).1
  simpa using h

end AgeVerify
